import Mathlib

/-!
Shallow embedding of `src/src/animation/offline/gltf/gltf2ozz.cc`, the glTF to
ozz importer core, together with proofs about its sampling, dispatching,
skeleton-building and root-resolution routines.

Modelling conventions:
* `float` values (times, vector components, sampling rates) are modelled as
  exact rationals `ℚ`;
* `size_t` arithmetic is modelled modulo `2 ^ 64`;
* `tinygltf` buffer views are modelled as already-resolved typed payloads, an
  empty `Option` standing for a failed `BufferView` format check;
* C++ functions returning `bool` and writing through out-parameters are
  modelled as functions into `Option` of their outputs (`none` = `false`);
* potentially non-terminating recursion/loops are modelled with an explicit
  fuel parameter, the fuel-exhausted outcome being one more `Option` layer.
-/

namespace Gltf2Ozz

/-- Floats are modelled as exact rationals. -/
abbrev F : Type := ℚ

/-- Componentwise model of `ozz::math::Float3`. -/
structure Float3 where
  x : F
  y : F
  z : F
deriving DecidableEq

/-- Componentwise model of `ozz::math::Quaternion` (x, y, z, w). -/
structure Quaternion where
  x : F
  y : F
  z : F
  w : F
deriving DecidableEq

/-- Modelled from the spec: `ozz::math::Float3::zero()` (ozz math library is
not part of the importer source). -/
def Float3.zero : Float3 := ⟨0, 0, 0⟩

/-- Modelled from the spec: `ozz::math::Float3::one()`. -/
def Float3.one : Float3 := ⟨1, 1, 1⟩

/-- Modelled from the spec: `ozz::math::Quaternion::identity()`, the identity
rotation (0, 0, 0, 1). -/
def Quaternion.identity : Quaternion := ⟨0, 0, 0, 1⟩

/-- Modelled from the spec: componentwise addition of `ozz::math::Float3`. -/
def Float3.add (a b : Float3) : Float3 := ⟨a.x + b.x, a.y + b.y, a.z + b.z⟩

/-- Modelled from the spec: scalar multiplication of `ozz::math::Float3`. -/
def Float3.smul (a : Float3) (s : F) : Float3 := ⟨a.x * s, a.y * s, a.z * s⟩

/-- Modelled from the spec: componentwise addition of `ozz::math::Quaternion`
(used by the Hermite blend, which treats a quaternion as a 4-vector). -/
def Quaternion.add (a b : Quaternion) : Quaternion :=
  ⟨a.x + b.x, a.y + b.y, a.z + b.z, a.w + b.w⟩

/-- Modelled from the spec: scalar multiplication of `ozz::math::Quaternion`. -/
def Quaternion.smul (a : Quaternion) (s : F) : Quaternion :=
  ⟨a.x * s, a.y * s, a.z * s, a.w * s⟩

/-- One ozz keyframe: a (time, value) pair.  Models
`RawAnimation::TranslationKey` / `RotationKey` / `ScaleKey` uniformly. -/
structure Keyframe (V : Type) where
  time : F
  value : V
deriving DecidableEq

/-- Cardinality of `size_t`: unsigned 64-bit arithmetic wraps modulo this. -/
def sizetMod : Nat := 2 ^ 64

/-- `size_t` subtraction `a - b`, wrapping modulo `2 ^ 64`. -/
def sizetSub (a b : Nat) : Nat :=
  (a % sizetMod + (sizetMod - b % sizetMod)) % sizetMod

/-- The keyframe count `_output.count * 2 - 1` computed by `SampleStepChannel`
in `size_t` arithmetic. -/
def stepNumKeyframes (count : Nat) : Nat := sizetSub (count * 2) 1

/-- The step-sampler epsilon `1e-6f` (line `const float eps = 1e-6f;`),
modelled as the exact rational it denotes. -/
def eps : F := 1 / 1000000

/-- Contents of slot `k` of the keyframe vector written by the loop of
`SampleStepChannel`: slot `2*i` (for `i < count`) receives
`(timestamps[i], values[i])`, slot `2*i + 1` (for `i < count - 1`) receives
`(timestamps[i+1] - eps, values[i])`; any slot the loop does not write keeps
the default-constructed keyframe `d`. -/
def stepKeyAt {V : Type} (ts : List F) (vs : List V) (count : Nat)
    (d : Keyframe V) (k : Nat) : Keyframe V :=
  if k % 2 = 0 then
    if k / 2 < count then
      { time := ts.getD (k / 2) 0, value := vs.getD (k / 2) d.value }
    else d
  else
    if k / 2 + 1 < count then
      { time := ts.getD (k / 2 + 1) 0 - eps, value := vs.getD (k / 2) d.value }
    else d

/-- The keyframe vector produced by `SampleStepChannel`: resized to
`stepNumKeyframes count` entries, then filled slot by slot by the loop. -/
def stepKeys {V : Type} (ts : List F) (vs : List V) (count : Nat)
    (d : Keyframe V) : List (Keyframe V) :=
  (List.range (stepNumKeyframes count)).map (stepKeyAt ts vs count d)

/-- `SampleStepChannel`: fails when the output `BufferView` check fails,
otherwise resizes and fills the keyframe vector. -/
def sampleStepChannel {V : Type} (vals : Option (List V)) (ts : List F)
    (count : Nat) (d : Keyframe V) : Option (List (Keyframe V)) :=
  match vals with
  | none => none
  | some vs => some (stepKeys ts vs count d)

theorem sizetMod_eq : sizetMod = 18446744073709551616 := by
  norm_num [sizetMod]

theorem stepNumKeyframes_eq {n : Nat} (h1 : 1 ≤ n) (h2 : 2 * n < sizetMod) :
    stepNumKeyframes n = 2 * n - 1 := by
  unfold stepNumKeyframes sizetSub
  rw [sizetMod_eq] at h2 ⊢
  omega

theorem stepKeys_length {V : Type} (ts : List F) (vs : List V) (count : Nat)
    (d : Keyframe V) : (stepKeys ts vs count d).length = stepNumKeyframes count := by
  simp [stepKeys]

theorem stepKeys_getElem {V : Type} (ts : List F) (vs : List V) (count : Nat)
    (d : Keyframe V) (k : Nat) (hk : k < stepNumKeyframes count) :
    (stepKeys ts vs count d)[k]? = some (stepKeyAt ts vs count d k) := by
  simp [stepKeys, List.getElem?_map, List.getElem?_range, hk]

/-- C3: for a STEP channel with `n ≥ 1` input samples, `SampleStepChannel`
produces exactly `2n - 1` keyframes: slot `2i` holds `(t_i, v_i)` for every
sample `i`, slot `2i + 1` holds `(t_{i+1} - eps, v_i)` for every `i < n - 1`,
and when `eps` is smaller than every authored time delta the output times are
strictly increasing. -/
theorem sampleStepChannel_keys {V : Type} (ts : List F) (vs : List V)
    (n : Nat) (d : Keyframe V)
    (hn : 1 ≤ n) (hw : 2 * n < sizetMod)
    (hts : ts.length = n) (hvs : vs.length = n)
    (heps : ∀ i < n - 1, eps < ts.getD (i + 1) 0 - ts.getD i 0) :
    (stepKeys ts vs n d).length = 2 * n - 1 ∧
    (∀ i < n, (stepKeys ts vs n d)[2 * i]? =
      some ⟨ts.getD i 0, vs.getD i d.value⟩) ∧
    (∀ i < n - 1, (stepKeys ts vs n d)[2 * i + 1]? =
      some ⟨ts.getD (i + 1) 0 - eps, vs.getD i d.value⟩) ∧
    List.Chain' (fun a b => a.time < b.time) (stepKeys ts vs n d) := by
  have hnum := stepNumKeyframes_eq hn hw
  refine ⟨by rw [stepKeys_length, hnum], ?_, ?_, ?_⟩
  · intro i hi
    have hk : 2 * i < stepNumKeyframes n := by rw [hnum]; omega
    rw [stepKeys_getElem _ _ _ _ _ hk]
    unfold stepKeyAt
    rw [if_pos (by omega : 2 * i % 2 = 0)]
    rw [if_pos (by omega : 2 * i / 2 < n)]
    have h2 : 2 * i / 2 = i := by omega
    rw [h2]
  · intro i hi
    have hk : 2 * i + 1 < stepNumKeyframes n := by rw [hnum]; omega
    rw [stepKeys_getElem _ _ _ _ _ hk]
    unfold stepKeyAt
    rw [if_neg (by omega : ¬ (2 * i + 1) % 2 = 0)]
    rw [if_pos (by omega : (2 * i + 1) / 2 + 1 < n)]
    have h2 : (2 * i + 1) / 2 = i := by omega
    rw [h2]
  · rw [List.chain'_iff_get]
    intro k hk
    rw [stepKeys_length, hnum] at hk
    simp only [stepKeys, List.get_eq_getElem, List.getElem_map, List.getElem_range]
    rcases Nat.even_or_odd k with ⟨j, hj⟩ | ⟨j, hj⟩
    · unfold stepKeyAt
      rw [if_pos (by omega : k % 2 = 0)]
      rw [if_pos (by omega : k / 2 < n)]
      rw [if_neg (by omega : ¬ (k + 1) % 2 = 0)]
      rw [if_pos (by omega : (k + 1) / 2 + 1 < n)]
      have h2 : k / 2 = j := by omega
      have h4 : (k + 1) / 2 = j := by omega
      rw [h2, h4]
      have := heps j (by omega)
      dsimp only
      linarith
    · unfold stepKeyAt
      rw [if_neg (by omega : ¬ k % 2 = 0)]
      rw [if_pos (by omega : k / 2 + 1 < n)]
      rw [if_pos (by omega : (k + 1) % 2 = 0)]
      rw [if_pos (by omega : (k + 1) / 2 < n)]
      have h2 : k / 2 = j := by omega
      have h4 : (k + 1) / 2 = j + 1 := by omega
      rw [h2, h4]
      have : (0 : F) < eps := by norm_num [eps]
      dsimp only
      linarith

/-- C3 witness: the step sampler on the concrete channel with timestamps
`[0, 1]` and scalar values `[10, 20]`. -/
theorem sampleStepChannel_keys_witness :
    (stepKeys [0, 1] [(10 : F), 20] 2 ⟨0, 0⟩).length = 2 * 2 - 1 ∧
    (∀ i < 2, (stepKeys [0, 1] [(10 : F), 20] 2 ⟨0, 0⟩)[2 * i]? =
      some ⟨[(0 : F), 1].getD i 0, [(10 : F), 20].getD i 0⟩) ∧
    (∀ i < 2 - 1, (stepKeys [0, 1] [(10 : F), 20] 2 ⟨0, 0⟩)[2 * i + 1]? =
      some ⟨[(0 : F), 1].getD (i + 1) 0 - eps, [(10 : F), 20].getD i 0⟩) ∧
    List.Chain' (fun a b => a.time < b.time)
      (stepKeys [0, 1] [(10 : F), 20] 2 ⟨0, 0⟩) :=
  sampleStepChannel_keys [0, 1] [(10 : F), 20] 2 ⟨0, 0⟩ (by norm_num)
    (by rw [sizetMod_eq]; norm_num) rfl rfl
    (by
      intro i hi
      have h0 : i = 0 := by omega
      subst h0
      norm_num [eps, List.getD])

/-- C8: invoked with an output accessor of element count 0, the step sampler
computes `0 * 2 - 1` in `size_t` arithmetic, which wraps to `2 ^ 64 - 1`; it
still returns a successful result of that (astronomical) length rather than an
empty or failed one. -/
theorem sampleStepChannel_count_zero {V : Type} (vals : List V) (ts : List F)
    (d : Keyframe V) :
    sampleStepChannel (some vals) ts 0 d = some (stepKeys ts vals 0 d) ∧
    stepNumKeyframes 0 = 2 ^ 64 - 1 ∧
    (stepKeys ts vals 0 d).length = 2 ^ 64 - 1 := by
  have h : stepNumKeyframes 0 = 2 ^ 64 - 1 := by
    unfold stepNumKeyframes sizetSub
    rw [sizetMod_eq]
    norm_num
  exact ⟨rfl, h, by rw [stepKeys_length, h]⟩

/-- `SampleHermiteSpline`: evaluates the Hermite basis
`(2t³-3t², t³-2t²+t, -2t³+3t², t³-t²)` against `(p0, m0, p1, m1)`.  The value
type is kept generic exactly as the C++ template is, with the vector
addition/scalar-multiplication operations passed explicitly. -/
def sampleHermiteSpline {V : Type} (add : V → V → V) (smul : V → F → V)
    (t : F) (p0 m0 p1 m1 : V) : V :=
  let t2 := t * t
  let t3 := t2 * t
  let a := 2 * t3 - 3 * t2 + 1
  let b := t3 - 2 * t2 + t
  let c := -2 * t3 + 3 * t2
  let d := t3 - t2
  add (add (add (smul p0 a) (smul m0 b)) (smul p1 c)) (smul m1 d)

/-- The output size `floor(duration * _sampling_rate) + 1` computed by
`SampleCubicSplineChannel`. -/
def cubicNumKeyframes (duration rate : F) : Nat := (⌊duration * rate⌋ + 1).toNat

/-- The forward scan
`while (_timestamps[currentKey] > time && currentKey < numKeyframes - 1) currentKey++;`
of `SampleCubicSplineChannel`.  `steps` is the number of increments the bound
`currentKey < numKeyframes - 1` still allows, i.e. `numKeyframes - 1 - ck`
(the authored keyframe count is at least 1, as guaranteed by the asserted
count invariant, so the `size_t` expression `numKeyframes - 1` is exact). -/
def cubicAdvance (ts : List F) (time : F) : Nat → Nat → Nat
  | 0, ck => ck
  | steps + 1, ck =>
    if time < ts.getD ck 0 then cubicAdvance ts time steps (ck + 1) else ck

theorem cubicAdvance_zero (ts : List F) (time : F) (ck : Nat) :
    cubicAdvance ts time 0 ck = ck := rfl

theorem cubicAdvance_succ (ts : List F) (time : F) (steps ck : Nat) :
    cubicAdvance ts time (steps + 1) ck =
      if time < ts.getD ck 0 then cubicAdvance ts time steps (ck + 1) else ck := rfl

theorem cubicAdvance_of_not_lt (ts : List F) (time : F) (steps ck : Nat)
    (h : ¬ time < ts.getD ck 0) : cubicAdvance ts time steps ck = ck := by
  cases steps with
  | zero => rfl
  | succ n => rw [cubicAdvance_succ, if_neg h]

/-- The per-output-sample work of the loop of `SampleCubicSplineChannel`,
minus the value blend: for each output index `i` (at time `i / rate`), the
segment index `currentKey` after the forward scan, and the interpolation
parameter `t = (time - currentTime) / (nextTime - currentTime)` computed from
it.  `rem` counts the output samples still to produce, `ck` carries
`currentKey` across iterations. -/
def cubicParams (ts : List F) (numKeyframes : Nat) (rate : F) :
    Nat → Nat → Nat → List (Nat × F)
  | 0, _, _ => []
  | rem + 1, i, ck =>
    let time : F := (i : F) / rate
    let ck2 := cubicAdvance ts time (numKeyframes - 1 - ck) ck
    let u := (time - ts.getD ck2 0) / (ts.getD (ck2 + 1) 0 - ts.getD ck2 0)
    (ck2, u) :: cubicParams ts numKeyframes rate rem (i + 1) ck2

theorem cubicParams_zero (ts : List F) (nk : Nat) (rate : F) (i ck : Nat) :
    cubicParams ts nk rate 0 i ck = [] := rfl

theorem cubicParams_succ (ts : List F) (nk : Nat) (rate : F) (rem i ck : Nat) :
    cubicParams ts nk rate (rem + 1) i ck =
      ((cubicAdvance ts ((i : F) / rate) (nk - 1 - ck) ck),
        (((i : F) / rate) -
            ts.getD (cubicAdvance ts ((i : F) / rate) (nk - 1 - ck) ck) 0) /
          (ts.getD (cubicAdvance ts ((i : F) / rate) (nk - 1 - ck) ck + 1) 0 -
            ts.getD (cubicAdvance ts ((i : F) / rate) (nk - 1 - ck) ck) 0)) ::
      cubicParams ts nk rate rem (i + 1)
        (cubicAdvance ts ((i : F) / rate) (nk - 1 - ck) ck) := rfl

/-- The keyframes written by `SampleCubicSplineChannel`'s loop: for output
index `i` the key time is `i / rate` and the value is the Hermite blend of
`(p0, m0, p1, m1)` read from the value triplets at the scanned segment, with
the tangents scaled by the segment duration. -/
def sampleCubicKeys {V : Type} (add : V → V → V) (smul : V → F → V) (d : V)
    (ts : List F) (vs : List V) (numKeyframes : Nat) (rate : F)
    (total : Nat) : List (Keyframe V) :=
  ((List.range total).zip (cubicParams ts numKeyframes rate total 0 0)).map
    fun p =>
      let ck := p.2.1
      let currentTime := ts.getD ck 0
      let nextTime := ts.getD (ck + 1) 0
      let p0 := vs.getD (ck * 3 + 1) d
      let m0 := smul (vs.getD (ck * 3 + 2) d) (nextTime - currentTime)
      let p1 := vs.getD ((ck + 1) * 3 + 1) d
      let m1 := smul (vs.getD ((ck + 1) * 3) d) (nextTime - currentTime)
      ⟨(p.1 : F) / rate, sampleHermiteSpline add smul p.2.2 p0 m0 p1 m1⟩

/-- `SampleCubicSplineChannel`: fails when the output `BufferView` check
fails; otherwise resizes to `floor(duration * rate) + 1` keys and fills them,
with `numKeyframes = _output.count / 3` authored keyframes. -/
def sampleCubicSplineChannel {V : Type} (add : V → V → V) (smul : V → F → V)
    (d : V) (vals : Option (List V)) (ts : List F) (outputCount : Nat)
    (rate duration : F) : Option (List (Keyframe V)) :=
  match vals with
  | none => none
  | some vs =>
    some (sampleCubicKeys add smul d ts vs (outputCount / 3) rate
      (cubicNumKeyframes duration rate))

/-- C1: evaluation of the code at the failing input.  For the CUBICSPLINE
channel with strictly increasing authored timestamps `[0, 1, 2]`, sampling
rate 1 and duration 2 (so three output samples at times 0, 1, 2), the forward
scan — whose condition `_timestamps[currentKey] > time` can never hold once
`time` has passed the first timestamp — leaves `currentKey = 0` for every
sample: the third output sample `t = 2` lies in the authored segment
`[t_1, t_2] = [1, 2]`, yet the code evaluates the Hermite spline on segment 0
with interpolation parameter `u = 2 ∉ [0, 1]`. -/
theorem cubicParams_scan_stuck :
    cubicParams [0, 1, 2] 3 1 3 0 0 = [(0, 0), (0, 1), (0, 2)] ∧
    cubicNumKeyframes 2 1 = 3 ∧
    ((0 : F) < 1 ∧ (1 : F) < 2) ∧
    ((1 : F) ≤ 2 ∧ (2 : F) ≤ 2) ∧
    ¬ ((0 : F) ≤ 2 ∧ (2 : F) ≤ 1) := by
  have t1 : cubicParams [0, 1, 2] 3 1 1 2 0 = [(0, 2)] := by
    show cubicParams [0, 1, 2] 3 1 (0 + 1) 2 0 = _
    rw [cubicParams_succ,
      cubicAdvance_of_not_lt _ _ _ _ (by norm_num [List.getD]),
      cubicParams_zero]
    norm_num [List.getD]
  have t2 : cubicParams [0, 1, 2] 3 1 2 1 0 = [(0, 1), (0, 2)] := by
    show cubicParams [0, 1, 2] 3 1 (1 + 1) 1 0 = _
    rw [cubicParams_succ,
      cubicAdvance_of_not_lt _ _ _ _ (by norm_num [List.getD]),
      show ((1 : Nat) + 1) = 2 from rfl, t1]
    norm_num [List.getD]
  refine ⟨?_, ?_, by norm_num, by norm_num, by norm_num⟩
  · show cubicParams [0, 1, 2] 3 1 (2 + 1) 0 0 = _
    rw [cubicParams_succ,
      cubicAdvance_of_not_lt _ _ _ _ (by norm_num [List.getD]),
      show ((0 : Nat) + 1) = 1 from rfl, t2]
    norm_num [List.getD]
  · norm_num [cubicNumKeyframes]
    rfl

/-- Model of `tinygltf::Node`: the fields the importer core reads.  The TRS
fields are the raw (possibly empty) double arrays of the document. -/
structure GNode where
  name : String := ""
  children : List Nat := []
  matrix : List F := []
  translation : List F := []
  rotation : List F := []
  scale : List F := []
deriving DecidableEq, Inhabited

/-- Modelled from the spec: `ozz::math::Transform` with its `identity()`
(zero translation, identity rotation, unit scale); the ozz math library is
not part of the importer source. -/
structure Transform where
  translation : Float3
  rotation : Quaternion
  scale : Float3
deriving DecidableEq

/-- Modelled from the spec: `ozz::math::Transform::identity()`. -/
def Transform.identity : Transform :=
  ⟨Float3.zero, Quaternion.identity, Float3.one⟩

/-- `CreateNodeTransform`: fails when the node carries a matrix (disallowed
for animation targets); otherwise starts from the identity transform and
overrides each TRS component present on the node. -/
def createNodeTransform (node : GNode) : Option Transform :=
  if node.matrix.length ≠ 0 then none
  else some
    { translation :=
        if node.translation ≠ [] then
          ⟨node.translation.getD 0 0, node.translation.getD 1 0,
            node.translation.getD 2 0⟩
        else Transform.identity.translation
      rotation :=
        if node.rotation ≠ [] then
          ⟨node.rotation.getD 0 0, node.rotation.getD 1 0,
            node.rotation.getD 2 0, node.rotation.getD 3 0⟩
        else Transform.identity.rotation
      scale :=
        if node.scale ≠ [] then
          ⟨node.scale.getD 0 0, node.scale.getD 1 0, node.scale.getD 2 0⟩
        else Transform.identity.scale }

/-- One joint of `RawSkeleton`: name, transform and ordered children. -/
structure Joint where
  name : String
  transform : Transform
  children : List Joint

/-- The `for` loop of `ImportNode` over `_node.children`, parameterised by
the recursive call `f`: imports each child in order, aborting at the first
failure.  Outer `none` = a recursive call ran out of fuel; `some none` = a
child import returned `false`. -/
def importChildrenWith (f : GNode → Option (Option Joint)) (nodes : List GNode) :
    List Nat → Option (Option (List Joint))
  | [] => some (some [])
  | c :: rest =>
    match f (nodes.getD c default) with
    | none => none
    | some none => some none
    | some (some j) =>
      match importChildrenWith f nodes rest with
      | none => none
      | some none => some none
      | some (some js) => some (some (j :: js))

/-- `ImportNode`, indexed by the available recursion depth (the C++ call
stack): names the joint, fills its transform (failing if
`CreateNodeTransform` fails), then recursively imports every child in order.
`none` = the recursion depth was exhausted, i.e. the C++ function has not
returned within `fuel` nested calls. -/
def importNode (nodes : List GNode) : Nat → GNode → Option (Option Joint)
  | 0, _ => none
  | fuel + 1, node =>
    match createNodeTransform node with
    | none => some none
    | some tr =>
      match importChildrenWith (importNode nodes fuel) nodes node.children with
      | none => none
      | some none => some none
      | some (some cs) => some (some ⟨node.name, tr, cs⟩)
termination_by fuel _ => fuel

/-- A node graph with a cycle reachable from the root: node 0 lists itself as
its own child. -/
def cyclicNode : GNode := { name := "a", children := [0] }

/-- The one-node cyclic scene graph. -/
def cyclicNodes : List GNode := [cyclicNode]

/-- C2: the claim fails on the code — `ImportNode` has no cycle guard.  On
the graph whose single node is its own child, the recursive skeleton
construction never returns: for every recursion-depth budget the fuel-indexed
model runs out of fuel (the C++ code recurses forever), instead of failing
with an error result as the claim requires. -/
theorem importNode_cycle_diverges (fuel : Nat) :
    importNode cyclicNodes fuel cyclicNode = none := by
  induction fuel with
  | zero => simp [importNode]
  | succ n ih =>
    have hchild : importChildrenWith (importNode cyclicNodes n) cyclicNodes
        cyclicNode.children = none := by
      show importChildrenWith (importNode cyclicNodes n) cyclicNodes [0] = none
      simp only [importChildrenWith]
      rw [show cyclicNodes.getD 0 default = cyclicNode from rfl, ih]
    simp only [importNode, hchild]
    rfl

/-- Model of `tinygltf::Skin`: the optional explicit root (`skeleton`, −1
when absent) and the joints array. -/
structure Skin where
  skeleton : Int := -1
  joints : List Nat := []
deriving DecidableEq, Inhabited

/-- The children list of node `q`, i.e. `m_model.nodes[q].children`. -/
def childrenOf (nodes : List GNode) (q : Nat) : List Nat :=
  (nodes.getD q default).children

/-- One assignment `parents[child] = node` of `FindSkinRootJointIndex`,
on the map modelled as a function. -/
def insertParent (j : Nat) (m : Nat → Option Nat) (c : Nat) : Nat → Option Nat :=
  fun k => if k = c then some j else m k

/-- The parent map built by `FindSkinRootJointIndex`:
`for (int node : skin.joints) for (int child : nodes[node].children)
parents[child] = node;`. -/
def buildParents (nodes : List GNode) (joints : List Nat) : Nat → Option Nat :=
  joints.foldl (fun m j => (childrenOf nodes j).foldl (insertParent j) m)
    (fun _ => none)

/-- The loop `while (parents.find(root) != parents.end()) root = parents[root];`
with an explicit fuel bound; `none` = the loop has not terminated within
`fuel` iterations. -/
def rootWalk (parents : Nat → Option Nat) : Nat → Nat → Option Nat
  | 0, _ => none
  | fuel + 1, cur =>
    match parents cur with
    | none => some cur
    | some p => rootWalk parents fuel p

/-- `FindSkinRootJointIndex`: −1 for a skin without joints, the declared
`skeleton` when set, otherwise the terminal node of the parent-link walk
started at `joints[0]`. -/
def findSkinRootJointIndex (nodes : List GNode) (skin : Skin) (fuel : Nat) :
    Option Int :=
  match skin.joints with
  | [] => some (-1)
  | j0 :: _ =>
    if skin.skeleton ≠ -1 then some skin.skeleton
    else (rootWalk (buildParents nodes skin.joints) fuel j0).map Int.ofNat

/-- The joints (as a set) form a single connected tree rooted at `r`: `r` is
a joint and no joint lists it as a child, and every other joint has exactly
one parent among the joints, with `d` a depth function decreasing towards the
root (which encodes connectedness and acyclicity). -/
def SingleRootedTree (nodes : List GNode) (joints : List Nat) (r : Nat)
    (d : Nat → Nat) : Prop :=
  r ∈ joints ∧
  (∀ q ∈ joints, r ∉ childrenOf nodes q) ∧
  (∀ j ∈ joints, j ≠ r →
    ∃ p ∈ joints, j ∈ childrenOf nodes p ∧
      (∀ q ∈ joints, j ∈ childrenOf nodes q → q = p) ∧ d j = d p + 1)

theorem foldl_insertParent_not_mem (j : Nat) (cs : List Nat)
    (m : Nat → Option Nat) (k : Nat) (h : k ∉ cs) :
    (cs.foldl (insertParent j) m) k = m k := by
  induction cs generalizing m with
  | nil => rfl
  | cons c rest ih =>
    have h1 : k ≠ c ∧ k ∉ rest := by simpa [List.mem_cons, not_or] using h
    simp only [List.foldl_cons]
    rw [ih _ h1.2]
    simp [insertParent, h1.1]

theorem foldl_insertParent_mem (j : Nat) (cs : List Nat)
    (m : Nat → Option Nat) (k : Nat) (h : k ∈ cs) :
    (cs.foldl (insertParent j) m) k = some j := by
  induction cs generalizing m with
  | nil => simp at h
  | cons c rest ih =>
    simp only [List.foldl_cons]
    by_cases hk : k ∈ rest
    · exact ih _ hk
    · have hc : k = c := by
        rcases List.mem_cons.mp h with h' | h'
        · exact h'
        · exact absurd h' hk
      rw [foldl_insertParent_not_mem _ _ _ _ hk]
      simp [insertParent, hc]

theorem buildParents_aux_not_mem (nodes : List GNode) (k : Nat)
    (joints : List Nat) (m : Nat → Option Nat)
    (h : ∀ q ∈ joints, k ∉ childrenOf nodes q) :
    (joints.foldl (fun m j => (childrenOf nodes j).foldl (insertParent j) m) m) k
      = m k := by
  induction joints generalizing m with
  | nil => rfl
  | cons q rest ih =>
    simp only [List.foldl_cons]
    rw [ih _ fun q' hq' => h q' (List.mem_cons_of_mem _ hq')]
    exact foldl_insertParent_not_mem _ _ _ _ (h q (List.mem_cons_self _ _))

theorem buildParents_aux_mem (nodes : List GNode) (k p : Nat) :
    ∀ (joints : List Nat) (m : Nat → Option Nat), p ∈ joints →
      k ∈ childrenOf nodes p →
      (∀ q ∈ joints, k ∈ childrenOf nodes q → q = p) →
      (joints.foldl (fun m j => (childrenOf nodes j).foldl (insertParent j) m) m)
          k = some p := by
  intro joints
  induction joints with
  | nil => intro m hp _ _; simp at hp
  | cons q rest ih =>
    intro m hp hk huniq
    simp only [List.foldl_cons]
    by_cases hq : k ∈ childrenOf nodes q
    · have hqp : q = p := huniq q (List.mem_cons_self _ _) hq
      by_cases hpr : p ∈ rest
      · exact ih _ hpr hk fun q' h1 h2 => huniq q' (List.mem_cons_of_mem _ h1) h2
      · rw [buildParents_aux_not_mem nodes k rest _ fun q' h1 h2 =>
          absurd (huniq q' (List.mem_cons_of_mem _ h1) h2 ▸ h1) hpr]
        rw [hqp]
        exact foldl_insertParent_mem _ _ _ _ hk
    · have hpr : p ∈ rest := by
        rcases List.mem_cons.mp hp with h' | h'
        · exact absurd (h' ▸ hk) hq
        · exact h'
      exact ih _ hpr hk fun q' h1 h2 => huniq q' (List.mem_cons_of_mem _ h1) h2

theorem rootWalk_reaches (nodes : List GNode) (joints : List Nat) (r : Nat)
    (d : Nat → Nat) (h : SingleRootedTree nodes joints r d) :
    ∀ fuel j, j ∈ joints → d j < fuel →
      rootWalk (buildParents nodes joints) fuel j = some r := by
  obtain ⟨hr, hroot, hstep⟩ := h
  intro fuel
  induction fuel with
  | zero => intro j _ hd; omega
  | succ n ih =>
    intro j hj hd
    by_cases hjr : j = r
    · subst hjr
      have hnone : buildParents nodes joints j = none :=
        buildParents_aux_not_mem nodes j joints _ hroot
      simp [rootWalk, hnone]
    · obtain ⟨p, hp, hmem, huniq, hd'⟩ := hstep j hj hjr
      have hsome : buildParents nodes joints j = some p :=
        buildParents_aux_mem nodes j p joints _ hp hmem huniq
      simp only [rootWalk, hsome]
      exact ih p hp (by omega)

/-- C7: for any skin without an explicit root whose joints form a single
connected tree with exactly one parentless joint `r`, root resolution
terminates and returns `r`, and it does so for every permutation of the
joints array — the result is invariant under reordering of the input joint
list. -/
theorem findSkinRootJointIndex_perm (nodes : List GNode)
    (joints joints2 : List Nat) (r : Nat) (d : Nat → Nat)
    (h : SingleRootedTree nodes joints r d) (hperm : joints2.Perm joints) :
    ∃ N, ∀ fuel, N ≤ fuel →
      findSkinRootJointIndex nodes { skeleton := -1, joints := joints2 } fuel =
        some (Int.ofNat r) := by
  have h2 : SingleRootedTree nodes joints2 r d := by
    obtain ⟨hr, hroot, hstep⟩ := h
    refine ⟨hperm.mem_iff.mpr hr, fun q hq => hroot q (hperm.mem_iff.mp hq),
      fun j hj hjr => ?_⟩
    obtain ⟨p, hp, hmem, huniq, hd⟩ := hstep j (hperm.mem_iff.mp hj) hjr
    exact ⟨p, hperm.mem_iff.mpr hp, hmem,
      fun q hq hqc => huniq q (hperm.mem_iff.mp hq) hqc, hd⟩
  cases hj2 : joints2 with
  | nil =>
    exact absurd (hj2 ▸ h2.1) (by simp)
  | cons j0 rest =>
    subst hj2
    refine ⟨d j0 + 1, fun fuel hfuel => ?_⟩
    simp only [findSkinRootJointIndex]
    rw [if_neg (by norm_num)]
    rw [rootWalk_reaches nodes (j0 :: rest) r d h2 fuel j0
      (List.mem_cons_self _ _) (by omega)]
    rfl

/-- A concrete three-node chain 0 → 1 → 2 used as C7 witness data. -/
def tree3Nodes : List GNode :=
  [{ name := "J0", children := [1] }, { name := "J1", children := [2] },
    { name := "J2", children := [] }]

/-- C7 witness: the three-joint chain with joints listed as `[2, 0, 1]`, a
permutation of `[0, 1, 2]`, resolves to root node 0. -/
theorem findSkinRootJointIndex_perm_witness :
    ∃ N, ∀ fuel, N ≤ fuel →
      findSkinRootJointIndex tree3Nodes { skeleton := -1, joints := [2, 0, 1] }
        fuel = some (Int.ofNat 0) :=
  findSkinRootJointIndex_perm tree3Nodes [0, 1, 2] [2, 0, 1] 0 (fun j => j)
    (by unfold SingleRootedTree childrenOf; decide) (by decide)

/-- Typed payload of an output accessor's buffer: vec3 or vec4 elements. -/
inductive Vals where
  | v3 : List Float3 → Vals
  | v4 : List Quaternion → Vals
deriving DecidableEq

/-- `BufferView<Float3>` applied to the output accessor: succeeds exactly
when the declared element layout is vec3-of-float. -/
def getV3 : Option Vals → Option (List Float3)
  | some (.v3 l) => some l
  | _ => none

/-- `BufferView<Quaternion>` applied to the output accessor. -/
def getV4 : Option Vals → Option (List Quaternion)
  | some (.v4 l) => some l
  | _ => none

/-- Model of `tinygltf::AnimationSampler` together with the two accessors it
references, their buffer contents already resolved: `inputMax` is
`input.maxValues[0]` (the declared duration), `timestamps` the result of
`BufferView<float>` on the input accessor (`none` = format mismatch),
`output`/`outputCount` the output accessor's payload and element count. -/
structure ASampler where
  inputMax : F := 0
  inputCount : Nat := 0
  timestamps : Option (List F) := none
  output : Option Vals := none
  outputCount : Nat := 0
  interpolation : String := ""
deriving DecidableEq, Inhabited

/-- Model of `tinygltf::AnimationChannel`. -/
structure AChannel where
  targetNode : Int := -1
  targetPath : String := ""
  sampler : Nat := 0
deriving DecidableEq, Inhabited

/-- `RawAnimation::JointTrack`: the three per-joint keyframe tracks. -/
structure JointTrack where
  translations : List (Keyframe Float3) := []
  rotations : List (Keyframe Quaternion) := []
  scales : List (Keyframe Float3) := []
deriving DecidableEq, Inhabited

/-- The keyframes written by `SampleLinearChannel`'s loop: an exact copy of
the `_output.count` (time, value) pairs. -/
def sampleLinearKeys {V : Type} (ts : List F) (vs : List V) (count : Nat)
    (d : V) : List (Keyframe V) :=
  (List.range count).map fun i => ⟨ts.getD i 0, vs.getD i d⟩

/-- `SampleLinearChannel`: fails when the output `BufferView` check fails,
otherwise copies every keyframe over. -/
def sampleLinearChannel {V : Type} (vals : Option (List V)) (ts : List F)
    (count : Nat) (d : V) : Option (List (Keyframe V)) :=
  match vals with
  | none => none
  | some vs => some (sampleLinearKeys ts vs count d)

/-- `CreateTranslationBindPoseKey`: time 0, the node's translation or zero. -/
def createTranslationBindPoseKey (node : GNode) : Keyframe Float3 :=
  { time := 0
    value :=
      if node.translation = [] then Float3.zero
      else ⟨node.translation.getD 0 0, node.translation.getD 1 0,
        node.translation.getD 2 0⟩ }

/-- `CreateRotationBindPoseKey`: time 0, the node's rotation or identity. -/
def createRotationBindPoseKey (node : GNode) : Keyframe Quaternion :=
  { time := 0
    value :=
      if node.rotation = [] then Quaternion.identity
      else ⟨node.rotation.getD 0 0, node.rotation.getD 1 0,
        node.rotation.getD 2 0, node.rotation.getD 3 0⟩ }

/-- `CreateScaleBindPoseKey`: time 0, the node's scale or one. -/
def createScaleBindPoseKey (node : GNode) : Keyframe Float3 :=
  { time := 0
    value :=
      if node.scale = [] then Float3.one
      else ⟨node.scale.getD 0 0, node.scale.getD 1 0, node.scale.getD 2 0⟩ }

/-- `FindNodeByName`: the first node carrying the given name. -/
def findNodeByName (nodes : List GNode) (name : String) : Option GNode :=
  nodes.find? fun nd => nd.name == name

/-- The bind-pose padding at the end of the per-joint loop of `Import`: each
still-empty track receives a single bind-pose keyframe. -/
def padBindPose (node : GNode) (tr : JointTrack) : JointTrack :=
  { translations :=
      if tr.translations = [] then [createTranslationBindPoseKey node]
      else tr.translations
    rotations :=
      if tr.rotations = [] then [createRotationBindPoseKey node]
      else tr.rotations
    scales :=
      if tr.scales = [] then [createScaleBindPoseKey node] else tr.scales }

/-- `SampleAnimationChannel`: raises the duration accumulator from the input
accessor's declared maximum, resolves the input `BufferView`, then dispatches
on (interpolation kind, target path).  The quaternion normalisation applied
to CUBICSPLINE rotation outputs (`ozz::math::Normalize`, not part of the
importer source) is passed in as `normQ`. -/
def sampleAnimationChannel (normQ : Quaternion → Quaternion) (s : ASampler)
    (path : String) (rate : F) (dur : F) (tr : JointTrack) :
    Option (F × JointTrack) :=
  let duration := s.inputMax
  let dur2 := if duration > dur then duration else dur
  match s.timestamps with
  | none => none
  | some ts =>
    if s.interpolation = "" then none
    else if s.interpolation = "LINEAR" then
      if path = "translation" then
        match sampleLinearChannel (getV3 s.output) ts s.outputCount Float3.zero with
        | none => none
        | some keys => some (dur2, { tr with translations := keys })
      else if path = "rotation" then
        match sampleLinearChannel (getV4 s.output) ts s.outputCount Quaternion.identity with
        | none => none
        | some keys => some (dur2, { tr with rotations := keys })
      else if path = "scale" then
        match sampleLinearChannel (getV3 s.output) ts s.outputCount Float3.zero with
        | none => none
        | some keys => some (dur2, { tr with scales := keys })
      else none
    else if s.interpolation = "STEP" then
      if path = "translation" then
        match sampleStepChannel (getV3 s.output) ts s.outputCount ⟨0, Float3.zero⟩ with
        | none => none
        | some keys => some (dur2, { tr with translations := keys })
      else if path = "rotation" then
        match sampleStepChannel (getV4 s.output) ts s.outputCount ⟨0, Quaternion.identity⟩ with
        | none => none
        | some keys => some (dur2, { tr with rotations := keys })
      else if path = "scale" then
        match sampleStepChannel (getV3 s.output) ts s.outputCount ⟨0, Float3.zero⟩ with
        | none => none
        | some keys => some (dur2, { tr with scales := keys })
      else none
    else if s.interpolation = "CUBICSPLINE" then
      if path = "translation" then
        match sampleCubicSplineChannel Float3.add Float3.smul Float3.zero
            (getV3 s.output) ts s.outputCount rate duration with
        | none => none
        | some keys => some (dur2, { tr with translations := keys })
      else if path = "rotation" then
        match sampleCubicSplineChannel Quaternion.add Quaternion.smul
            Quaternion.identity (getV4 s.output) ts s.outputCount rate duration with
        | none => none
        | some keys =>
          some (dur2,
            { tr with rotations := keys.map fun k => ⟨k.time, normQ k.value⟩ })
      else if path = "scale" then
        match sampleCubicSplineChannel Float3.add Float3.smul Float3.zero
            (getV3 s.output) ts s.outputCount rate duration with
        | none => none
        | some keys => some (dur2, { tr with scales := keys })
      else none
    else none

/-- The channels `Import` associates with the joint called `name`: channels
with an unset target node (`target_node == -1`) are skipped by the
`channels_per_joint` loop, the rest are grouped by their target node's name. -/
def channelsFor (nodes : List GNode) (channels : List AChannel)
    (name : String) : List AChannel :=
  channels.filter fun c =>
    c.targetNode != -1 && (nodes.getD c.targetNode.toNat default).name == name

/-- The inner loop of `Import` over one joint's channels: samples each in
order into the joint's track, threading the duration accumulator, aborting at
the first failure. -/
def sampleChannels (normQ : Quaternion → Quaternion) (samplers : List ASampler)
    (rate : F) : List AChannel → F → JointTrack → Option (F × JointTrack)
  | [], dur, tr => some (dur, tr)
  | c :: rest, dur, tr =>
    match sampleAnimationChannel normQ (samplers.getD c.sampler default)
        c.targetPath rate dur tr with
    | none => none
    | some (dur2, tr2) => sampleChannels normQ samplers rate rest dur2 tr2

/-- The outer loop of `Import` over the skeleton's joints, in joint order:
samples the joint's channels, then pads bind-pose keys for still-empty
tracks, accumulating the duration across all joints. -/
def processJoints (normQ : Quaternion → Quaternion) (samplers : List ASampler)
    (nodes : List GNode) (channels : List AChannel) (rate : F) :
    List String → F → Option (F × List JointTrack)
  | [], dur => some (dur, [])
  | name :: rest, dur =>
    match sampleChannels normQ samplers rate (channelsFor nodes channels name)
        dur default with
    | none => none
    | some (dur2, tr) =>
      match processJoints normQ samplers nodes channels rate rest dur2 with
      | none => none
      | some (dur3, tracks) =>
        some (dur3, padBindPose ((findNodeByName nodes name).getD default) tr
          :: tracks)

/-- `Import` for one animation: substitutes the default 30 Hz for a sampling
rate of 0, starts the duration accumulator at 0, processes every joint, and
finally validates the result (`RawAnimation::Validate`, not part of the
importer source, is passed in as the predicate `validate`; it only accepts or
rejects, never modifies). -/
def importAnimation (normQ : Quaternion → Quaternion)
    (samplers : List ASampler) (channels : List AChannel) (nodes : List GNode)
    (jointNames : List String) (rate0 : F)
    (validate : F → List JointTrack → Bool) : Option (F × List JointTrack) :=
  let rate := if rate0 = 0 then 30 else rate0
  match processJoints normQ samplers nodes channels rate jointNames 0 with
  | none => none
  | some (dur, tracks) =>
    if validate dur tracks then some (dur, tracks) else none

/-- C10: calling the animation import with a sampling rate of exactly 0
produces the very animation produced by a sampling rate of 30: rate 0 means
an automatic default of 30 Hz. -/
theorem importAnimation_rate_zero (normQ : Quaternion → Quaternion)
    (samplers : List ASampler) (channels : List AChannel) (nodes : List GNode)
    (names : List String) (validate : F → List JointTrack → Bool) :
    importAnimation normQ samplers channels nodes names 0 validate =
      importAnimation normQ samplers channels nodes names 30 validate := by
  unfold importAnimation
  norm_num

/-- C6: a channel whose interpolation kind is none of LINEAR, STEP,
CUBICSPLINE (the empty string included), or whose target path is none of
translation, rotation, scale, makes `SampleAnimationChannel` return a hard
failure — it is never silently skipped and contributes no keyframes. -/
theorem sampleAnimationChannel_unsupported (normQ : Quaternion → Quaternion)
    (s : ASampler) (path : String) (rate dur : F) (tr : JointTrack)
    (h : (s.interpolation ≠ "LINEAR" ∧ s.interpolation ≠ "STEP" ∧
        s.interpolation ≠ "CUBICSPLINE") ∨
      (path ≠ "translation" ∧ path ≠ "rotation" ∧ path ≠ "scale")) :
    sampleAnimationChannel normQ s path rate dur tr = none := by
  unfold sampleAnimationChannel
  cases hts : s.timestamps with
  | none => rfl
  | some ts =>
    rcases h with ⟨h1, h2, h3⟩ | ⟨h1, h2, h3⟩ <;>
      by_cases he : s.interpolation = "" <;>
        by_cases hl : s.interpolation = "LINEAR" <;>
          by_cases hs2 : s.interpolation = "STEP" <;>
            by_cases hc : s.interpolation = "CUBICSPLINE" <;>
              simp_all

/-- C6 witness: a sampler with interpolation kind `"FOO"` fails hard. -/
theorem sampleAnimationChannel_unsupported_witness :
    sampleAnimationChannel (fun q => q)
      { interpolation := "FOO", timestamps := some [] } "translation" 1 0
      default = none :=
  sampleAnimationChannel_unsupported (fun q => q)
    { interpolation := "FOO", timestamps := some [] } "translation" 1 0 default
    (Or.inl ⟨by decide, by decide, by decide⟩)

theorem channelsFor_cons_unset (nodes : List GNode) (c : AChannel)
    (channels : List AChannel) (name : String) (h : c.targetNode = -1) :
    channelsFor nodes (c :: channels) name = channelsFor nodes channels name := by
  unfold channelsFor
  rw [List.filter_cons_of_neg]
  simp [h]

/-- C9: a channel whose target node is unset (`target_node == -1`) is
silently skipped by the animation import: removing it from the channel list
leaves the imported animation — keyframes, duration and success — unchanged,
so it is never dispatched and never contributes anything. -/
theorem importAnimation_skips_unset_target (normQ : Quaternion → Quaternion)
    (samplers : List ASampler) (c : AChannel) (channels : List AChannel)
    (nodes : List GNode) (names : List String) (rate0 : F)
    (validate : F → List JointTrack → Bool) (h : c.targetNode = -1) :
    importAnimation normQ samplers (c :: channels) nodes names rate0 validate =
      importAnimation normQ samplers channels nodes names rate0 validate := by
  have hpj : ∀ (names2 : List String) (r : F) (dur : F),
      processJoints normQ samplers nodes (c :: channels) r names2 dur =
        processJoints normQ samplers nodes channels r names2 dur := by
    intro names2 r
    induction names2 with
    | nil => intro dur; rfl
    | cons name rest ih =>
      intro dur
      simp only [processJoints, channelsFor_cons_unset nodes c channels name h, ih]
  simp only [importAnimation, hpj]

/-- C9 witness: a concrete channel with `target_node = -1` leaves the import
of a one-joint skeleton unchanged. -/
theorem importAnimation_skips_unset_target_witness :
    importAnimation (fun q => q) []
      [{ targetNode := -1, targetPath := "translation", sampler := 0 }]
      [{ name := "j" }] ["j"] 1 (fun _ _ => true) =
    importAnimation (fun q => q) [] [] [{ name := "j" }] ["j"] 1
      (fun _ _ => true) :=
  importAnimation_skips_unset_target (fun q => q) []
    { targetNode := -1, targetPath := "translation", sampler := 0 } []
    [{ name := "j" }] ["j"] 1 (fun _ _ => true) rfl

/-- The declared maximum input timestamp of the sampler a channel uses. -/
def channelMax (samplers : List ASampler) (c : AChannel) : F :=
  (samplers.getD c.sampler default).inputMax

/-- The declared maxima of all channels the import actually dispatches, in
dispatch order: per joint (in joint order), that joint's channels. -/
def sampledMaxima (samplers : List ASampler) (channels : List AChannel)
    (nodes : List GNode) (jointNames : List String) : List F :=
  ((jointNames.map fun n => channelsFor nodes channels n).flatten).map
    (channelMax samplers)

theorem sampleAnimationChannel_duration (normQ : Quaternion → Quaternion)
    (s : ASampler) (path : String) (rate dur : F) (tr : JointTrack)
    (x : F × JointTrack)
    (h : sampleAnimationChannel normQ s path rate dur tr = some x) :
    x.1 = max dur s.inputMax := by
  have hD : (if s.inputMax > dur then s.inputMax else dur) = max dur s.inputMax := by
    rcases le_or_lt s.inputMax dur with hle | hlt
    · rw [if_neg (not_lt.mpr hle), max_eq_left hle]
    · rw [if_pos hlt, max_eq_right hlt.le]
  simp only [sampleAnimationChannel] at h
  simp only [hD] at h
  iterate 10 (all_goals try split at h)
  all_goals
    first
      | (injection h with h2; subst h2; rfl)
      | (injection h)

theorem sampleChannels_duration (normQ : Quaternion → Quaternion)
    (samplers : List ASampler) (rate : F) :
    ∀ (cs : List AChannel) (dur : F) (tr : JointTrack) (x : F × JointTrack),
      sampleChannels normQ samplers rate cs dur tr = some x →
      x.1 = cs.foldl (fun a c => max a (channelMax samplers c)) dur := by
  intro cs
  induction cs with
  | nil =>
    intro dur tr x h
    simp only [sampleChannels] at h
    injection h with h'
    rw [← h']
    rfl
  | cons c rest ih =>
    intro dur tr x h
    simp only [sampleChannels] at h
    cases hs : sampleAnimationChannel normQ (samplers.getD c.sampler default)
        c.targetPath rate dur tr with
    | none => rw [hs] at h; exact absurd h (by simp)
    | some y =>
      obtain ⟨d2, t2⟩ := y
      rw [hs] at h
      have hd2 : d2 = max dur (channelMax samplers c) :=
        sampleAnimationChannel_duration _ _ _ _ _ _ _ hs
      rw [ih _ _ _ h, List.foldl_cons, ← hd2]

theorem processJoints_duration (normQ : Quaternion → Quaternion)
    (samplers : List ASampler) (nodes : List GNode) (channels : List AChannel)
    (rate : F) :
    ∀ (names : List String) (dur : F) (x : F × List JointTrack),
      processJoints normQ samplers nodes channels rate names dur = some x →
      x.1 = ((names.map fun n => channelsFor nodes channels n).flatten).foldl
        (fun a c => max a (channelMax samplers c)) dur := by
  intro names
  induction names with
  | nil =>
    intro dur x h
    simp only [processJoints] at h
    injection h with h'
    rw [← h']
    rfl
  | cons name rest ih =>
    intro dur x h
    simp only [processJoints] at h
    cases hs : sampleChannels normQ samplers rate
        (channelsFor nodes channels name) dur default with
    | none => rw [hs] at h; exact absurd h (by simp)
    | some y =>
      obtain ⟨d2, t2⟩ := y
      rw [hs] at h
      dsimp only at h
      cases hp : processJoints normQ samplers nodes channels rate rest d2 with
      | none => rw [hp] at h; exact absurd h (by simp)
      | some z =>
        obtain ⟨d3, tracks⟩ := z
        rw [hp] at h
        injection h with h'
        have hd2 : d2 = (channelsFor nodes channels name).foldl
            (fun a c => max a (channelMax samplers c)) dur :=
          sampleChannels_duration _ _ _ _ _ _ _ hs
        have hd3 := ih d2 (d3, tracks) hp
        rw [← h']
        simp only [List.map_cons, List.flatten_cons, List.foldl_append]
        rw [← hd2]
        exact hd3

theorem foldl_max_le_init (l : List F) (a : F) : a ≤ l.foldl max a := by
  induction l generalizing a with
  | nil => exact le_refl a
  | cons x rest ih => exact le_trans (le_max_left a x) (ih (max a x))

theorem foldl_max_le_mem (m : F) : ∀ (l : List F) (a : F), m ∈ l →
    m ≤ l.foldl max a := by
  intro l
  induction l with
  | nil => intro a hm; simp at hm
  | cons x rest ih =>
    intro a hm
    rcases List.mem_cons.mp hm with h' | h'
    · subst h'
      exact le_trans (le_max_right a m) (foldl_max_le_init rest (max a m))
    · exact ih (max a x) h'

theorem foldl_max_eq_or_mem (l : List F) (a : F) :
    l.foldl max a = a ∨ l.foldl max a ∈ l := by
  induction l generalizing a with
  | nil => exact Or.inl rfl
  | cons x rest ih =>
    rcases ih (max a x) with h' | h'
    · rcases max_choice a x with hm | hm
      · exact Or.inl (by rw [List.foldl_cons, h', hm])
      · exact Or.inr (by rw [List.foldl_cons, h', hm]; exact List.mem_cons_self _ _)
    · exact Or.inr (List.mem_cons_of_mem _ h')

/-- C5 (amended): after a successful animation import, the duration is the
maximum of 0 and the sampled channels' declared maximum input timestamps —
it is 0 when no channel is sampled, every sampled channel's declared maximum
is at most the duration, the duration is 0 or one of the declared maxima,
and it is never negative.  (When some declared maximum is non-negative this
is exactly the maximum over the sampled channels; the accumulator starts at
0, so an all-negative set of declared maxima yields 0, not their maximum.) -/
theorem importAnimation_duration (normQ : Quaternion → Quaternion)
    (samplers : List ASampler) (channels : List AChannel) (nodes : List GNode)
    (names : List String) (rate0 : F) (validate : F → List JointTrack → Bool)
    (dur : F) (tracks : List JointTrack)
    (h : importAnimation normQ samplers channels nodes names rate0 validate =
      some (dur, tracks)) :
    (sampledMaxima samplers channels nodes names = [] → dur = 0) ∧
    (∀ m ∈ sampledMaxima samplers channels nodes names, m ≤ dur) ∧
    (dur = 0 ∨ dur ∈ sampledMaxima samplers channels nodes names) ∧
    0 ≤ dur := by
  simp only [importAnimation] at h
  cases hp : processJoints normQ samplers nodes channels
      (if rate0 = 0 then 30 else rate0) names 0 with
  | none => rw [hp] at h; exact absurd h (by simp)
  | some y =>
    obtain ⟨d, t⟩ := y
    rw [hp] at h
    dsimp only at h
    have hdur : d = dur := by
      by_cases hv : validate d t = true
      · rw [if_pos hv] at h
        injection h with h2
        exact congrArg Prod.fst h2
      · rw [if_neg hv] at h
        exact absurd h (by simp)
    have hd2 : d = ((names.map fun n => channelsFor nodes channels n).flatten).foldl
        (fun a c => max a (channelMax samplers c)) 0 :=
      processJoints_duration normQ samplers nodes channels _ names 0 (d, t) hp
    have hfold : (sampledMaxima samplers channels nodes names).foldl max 0 =
        ((names.map fun n => channelsFor nodes channels n).flatten).foldl
          (fun a c => max a (channelMax samplers c)) 0 := by
      unfold sampledMaxima
      rw [List.foldl_map]
    have hdL : dur = (sampledMaxima samplers channels nodes names).foldl max 0 := by
      rw [← hdur, hd2, ← hfold]
    refine ⟨?_, ?_, ?_, ?_⟩
    · intro hnil
      rw [hdL, hnil]
      rfl
    · intro m hm
      rw [hdL]
      exact foldl_max_le_mem m _ 0 hm
    · rcases foldl_max_eq_or_mem (sampledMaxima samplers channels nodes names) 0
        with h' | h'
      · exact Or.inl (by rw [hdL, h'])
      · exact Or.inr (by rw [hdL]; exact h')
    · rw [hdL]
      exact foldl_max_le_init _ 0

/-- One-joint scene used by the concrete import evaluations. -/
def oneJointNodes : List GNode := [{ name := "j" }]

/-- A LINEAR translation sampler with a single keyframe at time 0 and a
declared maximum input timestamp `m`. -/
def oneKeySampler (m : F) : ASampler :=
  { inputMax := m, inputCount := 1, timestamps := some [0],
    output := some (.v3 [⟨1, 2, 3⟩]), outputCount := 1,
    interpolation := "LINEAR" }

/-- A channel binding sampler 0 to node 0's translation. -/
def oneKeyChannel : AChannel :=
  { targetNode := 0, targetPath := "translation", sampler := 0 }

/-- The joint track resulting from importing the one-key channel: the
translation key is copied, rotation and scale get bind-pose keys. -/
def oneKeyTrack : JointTrack :=
  { translations := [⟨0, ⟨1, 2, 3⟩⟩],
    rotations := [⟨0, Quaternion.identity⟩],
    scales := [⟨0, Float3.one⟩] }

theorem oneKey_import_eval (m : F) :
    importAnimation (fun q => q) [oneKeySampler m] [oneKeyChannel]
      oneJointNodes ["j"] 1 (fun _ _ => true) =
      some ((if m > 0 then m else 0), [oneKeyTrack]) := by
  have hcf : channelsFor oneJointNodes [oneKeyChannel] "j" = [oneKeyChannel] := by
    decide
  have hch : sampleAnimationChannel (fun q => q) (oneKeySampler m)
      "translation" 1 0 default =
      some ((if m > 0 then m else 0),
        { translations := [⟨0, ⟨1, 2, 3⟩⟩], rotations := [], scales := [] }) := by
    simp only [sampleAnimationChannel, oneKeySampler, sampleLinearChannel,
      sampleLinearKeys, getV3]
    simp [List.range_succ]
    exact ⟨rfl, rfl⟩
  have hsc : sampleChannels (fun q => q) [oneKeySampler m] 1 [oneKeyChannel] 0
      default =
      some ((if m > 0 then m else 0),
        { translations := [⟨0, ⟨1, 2, 3⟩⟩], rotations := [], scales := [] }) := by
    simp only [sampleChannels]
    rw [show ([oneKeySampler m].getD oneKeyChannel.sampler default) =
      oneKeySampler m from rfl]
    rw [show oneKeyChannel.targetPath = "translation" from rfl]
    rw [hch]
  have hpj : processJoints (fun q => q) [oneKeySampler m] oneJointNodes
      [oneKeyChannel] 1 ["j"] 0 =
      some ((if m > 0 then m else 0), [oneKeyTrack]) := by
    simp only [processJoints, hcf, hsc]
    rfl
  simp only [importAnimation]
  norm_num
  rw [hpj]

/-- C5 counterexample: the claim's equality "duration = maximum over all
sampled channels of the declared maximum input timestamp" fails on the code
when the only sampled channel declares a negative maximum: with declared
maximum −1 (and an authored key at time 0) the import succeeds and returns
duration 0, because the accumulator starts at 0 and is only ever raised,
while the claimed maximum is −1. -/
theorem importAnimation_duration_counterexample :
    importAnimation (fun q => q) [oneKeySampler (-1)] [oneKeyChannel]
      oneJointNodes ["j"] 1 (fun _ _ => true) = some (0, [oneKeyTrack]) ∧
    sampledMaxima [oneKeySampler (-1)] [oneKeyChannel] oneJointNodes ["j"] =
      [-1] ∧
    (0 : F) ≠ -1 := by
  refine ⟨?_, ?_, by norm_num⟩
  · rw [oneKey_import_eval (-1)]
    norm_num
  · have hcf : channelsFor oneJointNodes [oneKeyChannel] "j" = [oneKeyChannel] := by
      decide
    simp [sampledMaxima, channelMax, hcf]
    rfl

/-- C5 witness: the amended duration theorem applied to a successful import
with a single sampled channel of declared maximum 1. -/
theorem importAnimation_duration_witness :
    (sampledMaxima [oneKeySampler 1] [oneKeyChannel] oneJointNodes ["j"] = [] →
      (1 : F) = 0) ∧
    (∀ m ∈ sampledMaxima [oneKeySampler 1] [oneKeyChannel] oneJointNodes ["j"],
      m ≤ (1 : F)) ∧
    ((1 : F) = 0 ∨
      (1 : F) ∈ sampledMaxima [oneKeySampler 1] [oneKeyChannel] oneJointNodes
        ["j"]) ∧
    (0 : F) ≤ 1 :=
  importAnimation_duration (fun q => q) [oneKeySampler 1] [oneKeyChannel]
    oneJointNodes ["j"] 1 (fun _ _ => true) 1 [oneKeyTrack]
    (by rw [oneKey_import_eval 1]; norm_num)

theorem processJoints_tracks (normQ : Quaternion → Quaternion)
    (samplers : List ASampler) (nodes : List GNode) (channels : List AChannel)
    (rate : F) :
    ∀ (names : List String) (dur : F) (x : F × List JointTrack),
      processJoints normQ samplers nodes channels rate names dur = some x →
      x.2.length = names.length ∧
      ∀ i, i < names.length →
        channelsFor nodes channels (names.getD i "") = [] →
        x.2[i]? = some (padBindPose
          ((findNodeByName nodes (names.getD i "")).getD default) default) := by
  intro names
  induction names with
  | nil =>
    intro dur x h
    simp only [processJoints] at h
    injection h with h2
    subst h2
    exact ⟨rfl, fun i hi => absurd hi (by simp)⟩
  | cons name rest ih =>
    intro dur x h
    simp only [processJoints] at h
    cases hs : sampleChannels normQ samplers rate
        (channelsFor nodes channels name) dur default with
    | none => rw [hs] at h; exact absurd h (by simp)
    | some y =>
      obtain ⟨d2, t2⟩ := y
      rw [hs] at h
      dsimp only at h
      cases hp : processJoints normQ samplers nodes channels rate rest d2 with
      | none => rw [hp] at h; exact absurd h (by simp)
      | some z =>
        obtain ⟨d3, tracks⟩ := z
        rw [hp] at h
        dsimp only at h
        injection h with h2
        subst h2
        obtain ⟨ihlen, ihget⟩ := ih d2 (d3, tracks) hp
        refine ⟨by simpa using ihlen, ?_⟩
        intro i hi hempty
        cases i with
        | zero =>
          rw [List.getD_cons_zero] at hempty
          rw [hempty] at hs
          simp only [sampleChannels] at hs
          injection hs with hs2
          have ht2 : t2 = default := (congrArg Prod.snd hs2).symm
          rw [List.getD_cons_zero]
          subst ht2
          simp
        | succ i2 =>
          rw [List.getD_cons_succ] at hempty
          have hres := ihget i2 (by simpa using hi) hempty
          rw [List.getD_cons_succ]
          simpa using hres

/-- C4: if an output joint has zero authored channels in the imported
animation, each of its three tracks after a successful import holds exactly
one keyframe, at time 0, whose value is the corresponding component of its
node's rest-pose TRS — `CreateTranslationBindPoseKey` /
`CreateRotationBindPoseKey` / `CreateScaleBindPoseKey` default to zero
translation, identity rotation and unit scale when the node omits the
component. -/
theorem importAnimation_bind_pose (normQ : Quaternion → Quaternion)
    (samplers : List ASampler) (channels : List AChannel) (nodes : List GNode)
    (names : List String) (rate0 : F) (validate : F → List JointTrack → Bool)
    (dur : F) (tracks : List JointTrack) (i : Nat)
    (h : importAnimation normQ samplers channels nodes names rate0 validate =
      some (dur, tracks))
    (hi : i < names.length)
    (hempty : channelsFor nodes channels (names.getD i "") = []) :
    tracks[i]? = some
      { translations := [createTranslationBindPoseKey
          ((findNodeByName nodes (names.getD i "")).getD default)]
        rotations := [createRotationBindPoseKey
          ((findNodeByName nodes (names.getD i "")).getD default)]
        scales := [createScaleBindPoseKey
          ((findNodeByName nodes (names.getD i "")).getD default)] } := by
  simp only [importAnimation] at h
  cases hp : processJoints normQ samplers nodes channels
      (if rate0 = 0 then 30 else rate0) names 0 with
  | none => rw [hp] at h; exact absurd h (by simp)
  | some y =>
    obtain ⟨d, t⟩ := y
    rw [hp] at h
    dsimp only at h
    have htr : t = tracks := by
      by_cases hv : validate d t = true
      · rw [if_pos hv] at h
        injection h with h2
        exact congrArg Prod.snd h2
      · rw [if_neg hv] at h
        exact absurd h (by simp)
    obtain ⟨_, hget⟩ := processJoints_tracks normQ samplers nodes channels _
      names 0 (d, t) hp
    have hres := hget i hi hempty
    rw [← htr]
    dsimp only at hres
    rw [hres]
    rfl

/-- C4 witness: importing an animation with no channels over a one-joint
skeleton whose node carries translation (5, 6, 7), no rotation and no scale:
the joint's track is exactly one bind-pose keyframe per property. -/
theorem importAnimation_bind_pose_witness :
    ([({ translations := [⟨0, ⟨5, 6, 7⟩⟩],
         rotations := [⟨0, Quaternion.identity⟩],
         scales := [⟨0, Float3.one⟩] } : JointTrack)])[0]? =
      some
        { translations := [createTranslationBindPoseKey
            ((findNodeByName [{ name := "j", translation := [5, 6, 7] }]
              (["j"].getD 0 "")).getD default)],
          rotations := [createRotationBindPoseKey
            ((findNodeByName [{ name := "j", translation := [5, 6, 7] }]
              (["j"].getD 0 "")).getD default)],
          scales := [createScaleBindPoseKey
            ((findNodeByName [{ name := "j", translation := [5, 6, 7] }]
              (["j"].getD 0 "")).getD default)] } :=
  importAnimation_bind_pose (fun q => q) [] []
    [{ name := "j", translation := [5, 6, 7] }] ["j"] 1 (fun _ _ => true) 0
    [{ translations := [⟨0, ⟨5, 6, 7⟩⟩],
       rotations := [⟨0, Quaternion.identity⟩],
       scales := [⟨0, Float3.one⟩] }] 0 (by rfl) (by decide) (by rfl)

end Gltf2Ozz
